import Mathlib

/-!
Verification of the file-system server's classification, scan/search engine
and mutation operations (`fs_server.py`), as a shallow embedding.

Modelling conventions:
* Paths and file contents are `List Char` (the server works on Python `str`
  values; we model ASCII text, where `str.lower` is character-wise
  `Char.toLower` and byte size equals character count).
* The OS directory-enumeration primitives (`os.walk`, `os.listdir`) are
  black boxes per the specification; their output is passed to the scan and
  search functions as explicit data.
* `os.stat` / `open` are modelled by an explicit environment (`Env`) for the
  read-only operations, and by an explicit file-system state (`FsState`) for
  the mutation operations.
* Python's `mimetypes.guess_type` is modelled as a static lookup table
  (`mimeTable`) holding the standard-library default mappings for the
  extensions relevant here.
-/

namespace FsSpec

/-- Characters of a Python string. -/
abbrev Chars := List Char

/-- Shorthand turning a string literal into its character list. -/
def str (s : String) : Chars := s.toList

/-- Python `s.lower()` (ASCII model): character-wise lowercasing. -/
def lowerCase (s : Chars) : Chars := s.map Char.toLower

/-- Python `s.startswith(pat)`. -/
def startsWith : Chars → Chars → Bool
  | _, [] => true
  | [], _ :: _ => false
  | a :: as, b :: bs => a = b && startsWith as bs

/-- Python `s.find(pat)`: index of the first occurrence of `pat` in `s`,
`none` when absent (Python returns -1 there). -/
def findSub : Chars → Chars → Option Nat
  | hay, need =>
    if startsWith hay need then some 0
    else
      match hay with
      | [] => none
      | _ :: t => (findSub t need).map (· + 1)

/-- Python `pat in s` (via `find`). -/
def containsSub (hay need : Chars) : Bool := (findSub hay need).isSome

/-- `os.path.basename` on POSIX paths: the part after the last slash. -/
def basename (p : Chars) : Chars := (p.reverse.takeWhile (fun c => c ≠ '/')).reverse

/-- `os.path.dirname` on POSIX paths: the part before the last slash
(empty when there is no slash). -/
def dirname (p : Chars) : Chars := ((p.reverse.dropWhile (fun c => c ≠ '/')).drop 1).reverse

/-- Index of the last occurrence of a character. -/
def lastIdxOfAux (c : Char) : Chars → Nat → Option Nat
  | [], _ => none
  | x :: xs, i =>
    match lastIdxOfAux c xs (i + 1) with
    | some j => some j
    | none => if x = c then some i else none

/-- Index of the last occurrence of a character in a list. -/
def lastIdxOf (c : Char) (l : Chars) : Option Nat := lastIdxOfAux c l 0

/-- `os.path.splitext(p)[1]`: the extension starts at the last dot of the
base name, provided some non-dot character precedes that dot within the
base name (leading dots never start an extension). -/
def splitextExt (p : Chars) : Chars :=
  let b := basename p
  match lastIdxOf '.' b with
  | none => []
  | some i => if (b.take i).any (fun ch => ch ≠ '.') then b.drop i else []

/-- The lower-cased extension, `os.path.splitext(p)[1].lower()`. -/
def extLower (p : Chars) : Chars := lowerCase (splitextExt p)

/-- First-match association-list lookup. -/
def assoc {α β : Type} [DecidableEq α] : List (α × β) → α → Option β
  | [], _ => none
  | (k, v) :: rest, a => if k = a then some v else assoc rest a

/-- The file categories the server's classifier can produce.  The twelve
categories named by the specification, plus `pdf`, which the code returns
for a declared `application/pdf` media type. -/
inductive FileType
  | image
  | video
  | audio
  | text
  | code
  | document
  | spreadsheet
  | presentation
  | data
  | archive
  | executable
  | pdf
  | unknown
deriving DecidableEq

/-- The standard-library default extension→media-type table used by
`mimetypes.guess_type`, restricted to the extensions this development
exercises. -/
def mimeTable : List (Chars × Chars) :=
  [ (str ".jpg", str "image/jpeg"), (str ".jpeg", str "image/jpeg"),
    (str ".png", str "image/png"), (str ".gif", str "image/gif"),
    (str ".bmp", str "image/bmp"), (str ".tiff", str "image/tiff"),
    (str ".mp4", str "video/mp4"), (str ".mov", str "video/quicktime"),
    (str ".avi", str "video/x-msvideo"), (str ".webm", str "video/webm"),
    (str ".mp3", str "audio/mpeg"), (str ".wav", str "audio/x-wav"),
    (str ".txt", str "text/plain"), (str ".html", str "text/html"),
    (str ".htm", str "text/html"), (str ".css", str "text/css"),
    (str ".csv", str "text/csv"), (str ".py", str "text/x-python"),
    (str ".c", str "text/plain"), (str ".h", str "text/plain"),
    (str ".js", str "text/javascript"), (str ".json", str "application/json"),
    (str ".xml", str "text/xml"), (str ".pdf", str "application/pdf"),
    (str ".doc", str "application/msword"),
    (str ".docx", str "application/vnd.openxmlformats-officedocument.wordprocessingml.document"),
    (str ".xls", str "application/vnd.ms-excel"),
    (str ".xlsx", str "application/vnd.openxmlformats-officedocument.spreadsheetml.sheet"),
    (str ".ppt", str "application/vnd.ms-powerpoint"),
    (str ".pptx", str "application/vnd.openxmlformats-officedocument.presentationml.presentation"),
    (str ".zip", str "application/zip"), (str ".tar", str "application/x-tar") ]

/-- `mimetypes.guess_type(path)[0]`: look the lower-cased extension up in
the static media-type table. -/
def guessType (p : Chars) : Option Chars := assoc mimeTable (extLower p)

/-- The media-type branch of `get_file_type` (`fs_server.py` lines 62-78):
maps a declared media type to a category, `none` when no `startswith`
branch fires (the code then falls through to the extension table). -/
def mimeCategory (m : Chars) : Option FileType :=
  if startsWith m (str "image/") then some .image
  else if startsWith m (str "video/") then some .video
  else if startsWith m (str "audio/") then some .audio
  else if startsWith m (str "text/") then some .text
  else if startsWith m (str "application/pdf") then some .pdf
  else if startsWith m (str "application/msword")
      || startsWith m (str "application/vnd.openxmlformats-officedocument.wordprocessingml") then
    some .document
  else if startsWith m (str "application/vnd.ms-excel")
      || startsWith m (str "application/vnd.openxmlformats-officedocument.spreadsheetml") then
    some .spreadsheet
  else if startsWith m (str "application/vnd.ms-powerpoint")
      || startsWith m (str "application/vnd.openxmlformats-officedocument.presentationml") then
    some .presentation
  else none

/-- The ordered extension table of the fallback branch of `get_file_type`
(lines 80-115): the source's `if/elif` chain over extension lists, written
as an ordered list of (extension list, category) rows tried first to last. -/
def extTable : List (List Chars × FileType) :=
  [ ([str ".jpg", str ".jpeg", str ".png", str ".gif", str ".bmp", str ".tiff", str ".webp"], .image),
    ([str ".mp4", str ".avi", str ".mov", str ".wmv", str ".mkv", str ".flv", str ".webm"], .video),
    ([str ".mp3", str ".wav", str ".ogg", str ".flac", str ".aac", str ".m4a"], .audio),
    ([str ".pdf", str ".txt", str ".md", str ".rtf"], .document),
    ([str ".py", str ".js", str ".html", str ".css", str ".java", str ".cpp",
      str ".c", str ".h", str ".cs", str ".php", str ".rb", str ".go", str ".rs", str ".ts"], .code),
    ([str ".csv", str ".json", str ".xml", str ".yaml", str ".yml", str ".sql",
      str ".db", str ".sqlite"], .data),
    ([str ".zip", str ".rar", str ".7z", str ".tar", str ".gz", str ".bz2"], .archive),
    ([str ".exe", str ".msi", str ".bat", str ".sh", str ".app", str ".dmg"], .executable),
    ([str ".doc", str ".docx"], .document),
    ([str ".xls", str ".xlsx"], .spreadsheet),
    ([str ".ppt", str ".pptx"], .presentation) ]

/-- The extension-fallback branch of `get_file_type` (lines 80-115): the
first row of `extTable` containing the lower-cased extension decides the
category; `unknown` when none does. -/
def extCategory (p : Chars) : FileType :=
  match extTable.find? (fun row => decide (extLower p ∈ row.1)) with
  | some row => row.2
  | none => .unknown

/-- `get_file_type` (`fs_server.py` lines 58-115): media-type branch first;
when it is absent or produces no category, the extension fallback. -/
def get_file_type (p : Chars) : FileType :=
  match guessType p with
  | some m =>
    match mimeCategory m with
    | some t => t
    | none => extCategory p
  | none => extCategory p

/-- The twelve `Category` values named by the specification's closed enum
(which omits `pdf`). -/
def specCategories : List FileType :=
  [.image, .video, .audio, .text, .code, .document, .spreadsheet,
   .presentation, .data, .archive, .executable, .unknown]

/-- All values `get_file_type` can produce: the twelve above plus `pdf`. -/
def codeCategories : List FileType := FileType.pdf :: specCategories

theorem mimeCategory_mem (m : Chars) (t : FileType) (h : mimeCategory m = some t) :
    t ∈ codeCategories := by
  unfold mimeCategory at h
  repeat' split at h
  all_goals cases h <;> decide

theorem extCategory_mem (p : Chars) : extCategory p ∈ codeCategories := by
  unfold extCategory
  cases hf : extTable.find? (fun row => decide (extLower p ∈ row.1)) with
  | none => decide
  | some row =>
    have hmem : row ∈ extTable := List.mem_of_find?_eq_some hf
    have hall : ∀ r ∈ extTable, r.2 ∈ codeCategories := by decide
    exact hall row hmem

/-- Claim C1, counterexample.  The claim says `get_file_type` always lands in
the specification's twelve-value `Category` enum; but on `"x.pdf"` the
declared media type is `application/pdf` and the classifier returns the
thirteenth value `pdf`, which is outside that enum. -/
theorem c1_counterexample :
    get_file_type (str "x.pdf") = FileType.pdf ∧
      get_file_type (str "x.pdf") ∉ specCategories := by
  constructor
  · rfl
  · decide

/-- Claim C1, amended.  For every input path — unconditionally — the
classifier returns one of thirteen values, the specification's twelve plus
`pdf`; and when neither table matches (the media-type branch yields no
category and the extension table falls through to `unknown`) it returns
`unknown`. -/
theorem c1_get_file_type_closed (p : Chars) :
    get_file_type p ∈ codeCategories ∧
      ((∀ m, guessType p = some m → mimeCategory m = none) →
        extCategory p = FileType.unknown →
        get_file_type p = FileType.unknown) := by
  refine ⟨?_, fun hmime hext => ?_⟩
  · unfold get_file_type
    cases hg : guessType p with
    | none => exact extCategory_mem p
    | some m =>
      dsimp only
      cases hm : mimeCategory m with
      | none => exact extCategory_mem p
      | some t => exact mimeCategory_mem m t hm
  · unfold get_file_type
    cases hg : guessType p with
    | none => exact hext
    | some m =>
      dsimp only
      rw [hmime m hg]
      exact hext

/-- Witness for C1: on `"x.qqq"` neither table matches, so the classifier
returns `unknown` (a member of the closed thirteen-value set). -/
theorem c1_witness :
    get_file_type (str "x.qqq") ∈ codeCategories ∧
      get_file_type (str "x.qqq") = FileType.unknown :=
  ⟨(c1_get_file_type_closed (str "x.qqq")).1,
    (c1_get_file_type_closed (str "x.qqq")).2 (by decide) (by decide)⟩

/-! ## Metadata extraction and the scan engine -/

/-- Python text-file line iteration: each line keeps its trailing newline;
a final unterminated chunk is its own line; an empty file yields no lines. -/
def pyLines : Chars → List Chars
  | [] => []
  | x :: xs =>
    if x = '\n' then ['\n'] :: pyLines xs
    else
      match pyLines xs with
      | [] => [[x]]
      | l :: ls => (x :: l) :: ls

/-- The `match` entry of a content-search result (context plus 1-based line). -/
structure MatchRecord where
  context : Chars
  line : Nat
deriving DecidableEq

/-- The metadata dictionary built by `get_file_metadata` (lines 117-155).
Optional fields default to absent, as in the Python dictionary. -/
structure FileRecord where
  path : Chars
  name : Chars
  size : Nat
  created : Nat
  modified : Nat
  ftype : FileType
  preview : Option Chars := none
  lineCount : Option Nat := none
  previewError : Option Chars := none
  mtch : Option MatchRecord := none
deriving DecidableEq

/-- The OS facilities behind the read-only operations: `os.stat` fields
(sizes and timestamps), `open(...).read()` with lossy decoding (`none` when
the open/read raises), and `os.path.isdir`.  Enumerated files are assumed to
stat successfully: the race between enumeration and stat is explicitly out
of scope per the specification's concurrency model. -/
structure Env where
  statSize : Chars → Nat
  statCtime : Chars → Nat
  statMtime : Chars → Nat
  readFile : Chars → Option Chars
  isdir : Chars → Bool

/-- The preview allow-list of `get_file_metadata` (line 137). -/
def previewExts : List Chars :=
  [str ".txt", str ".md", str ".csv", str ".json", str ".xml", str ".html",
   str ".css", str ".js", str ".py", str ".java", str ".c", str ".cpp",
   str ".h", str ".cs", str ".php", str ".rb", str ".go", str ".rs", str ".ts"]

/-- The textual categories used by metadata preview, `read_text_file` and
`search_file_contents` (lines 137, 192, 272). -/
def searchableTypes : List FileType := [.text, .code, .document]

/-- `get_file_metadata` (lines 117-155): stat-derived fields plus, for
allow-listed textual files, a 1000-character preview (with truncation
marker) and a line count; a read failure becomes a non-fatal
`preview_error` field. -/
def get_file_metadata (env : Env) (p : Chars) : FileRecord :=
  let base : FileRecord :=
    { path := p, name := basename p, size := env.statSize p,
      created := env.statCtime p, modified := env.statMtime p,
      ftype := get_file_type p }
  if get_file_type p ∈ searchableTypes ∧ extLower p ∈ previewExts then
    match env.readFile p with
    | some c =>
      let pv := c.take 1000
      let pv2 := if pv.length = 1000 then pv ++ str "... (truncated)" else pv
      { base with preview := some pv2, lineCount := some (pyLines c).length }
    | none => { base with previewError := some (str "read error") }
  else base

theorem get_file_metadata_ftype (env : Env) (p : Chars) :
    (get_file_metadata env p).ftype = get_file_type p := by
  unfold get_file_metadata
  dsimp only
  repeat' split
  all_goals rfl

theorem get_file_metadata_path (env : Env) (p : Chars) :
    (get_file_metadata env p).path = p := by
  unfold get_file_metadata
  dsimp only
  repeat' split
  all_goals rfl

/-- `os.path.join(d, f)` for a directory and an entry name. -/
def joinPath (d f : Chars) : Chars := d ++ '/' :: f

/-- The filter test `file_types is None or file_type in file_types`
(lines 168, 177, 248, 257, 285, 320). -/
def passFilter (file_types : Option (List FileType)) (t : FileType) : Bool :=
  match file_types with
  | none => true
  | some l => decide (t ∈ l)

/-- `scan_directory` (lines 157-183).  The OS enumeration is explicit
input, per the specification's black-box treatment of directory
enumeration: `w` is the `os.walk` output (directory path, regular-file
names in it) used when `recursive`, and `ls` the `os.listdir` output paired
with its `os.path.isfile` answer, used otherwise. -/
def scan_directory (env : Env) (w : List (Chars × List Chars))
    (ls : List (Chars × Bool)) (recursive : Bool)
    (file_types : Option (List FileType)) (directory_path : Chars) :
    List FileRecord :=
  if recursive then
    (w.map (fun pr => pr.2.filterMap (fun f =>
      let fp := joinPath pr.1 f
      if passFilter file_types (get_file_type fp) then some (get_file_metadata env fp)
      else none))).flatten
  else
    ls.filterMap (fun it =>
      if it.2 then
        let fp := joinPath directory_path it.1
        if passFilter file_types (get_file_type fp) then some (get_file_metadata env fp)
        else none
      else none)

/-- The file paths enumerated by a scan, before any filtering. -/
def walkedFiles (w : List (Chars × List Chars)) (ls : List (Chars × Bool))
    (recursive : Bool) (root : Chars) : List Chars :=
  if recursive then (w.map (fun pr => pr.2.map (joinPath pr.1))).flatten
  else ls.filterMap (fun it => if it.2 then some (joinPath root it.1) else none)

theorem mem_scan_directory (env : Env) (w : List (Chars × List Chars))
    (ls : List (Chars × Bool)) (recursive : Bool)
    (file_types : Option (List FileType)) (root : Chars) (r : FileRecord)
    (hr : r ∈ scan_directory env w ls recursive file_types root) :
    ∃ p, passFilter file_types (get_file_type p) = true ∧
      r = get_file_metadata env p := by
  cases recursive with
  | true =>
    simp only [scan_directory, if_true, List.mem_flatten, List.mem_map] at hr
    obtain ⟨sub, ⟨pr, hpr, rfl⟩, hrsub⟩ := hr
    rw [List.mem_filterMap] at hrsub
    obtain ⟨f, hf, hbody⟩ := hrsub
    split at hbody
    · exact ⟨joinPath pr.1 f, by assumption, by cases hbody; rfl⟩
    · cases hbody
  | false =>
    simp only [scan_directory, Bool.false_eq_true, if_false, List.mem_filterMap] at hr
    obtain ⟨it, hit, hbody⟩ := hr
    split at hbody
    · split at hbody
      · exact ⟨joinPath root it.1, by assumption, by cases hbody; rfl⟩
      · cases hbody
    · cases hbody

theorem filterMap_someComp {α β : Type} (f : α → β) (l : List α) :
    l.filterMap (fun a => some (f a)) = l.map f := by
  induction l with
  | nil => rfl
  | cons a t ih => simp [List.filterMap_cons, ih]

/-- Claim C2, counterexample.  A directory holding one text file: scanning
with the empty filter list returns the empty sequence, while scanning with
the filter omitted returns the file's record — so the empty filter does
not behave "as if unfiltered" as the claim states. -/
theorem c2_counterexample :
    scan_directory ⟨fun _ => 5, fun _ => 0, fun _ => 0, fun _ => none, fun _ => true⟩
        [(str "/d", [str "a.txt"])] [(str "a.txt", true)] true (some []) (str "/d") = [] ∧
      scan_directory ⟨fun _ => 5, fun _ => 0, fun _ => 0, fun _ => none, fun _ => true⟩
        [(str "/d", [str "a.txt"])] [(str "a.txt", true)] true none (str "/d") ≠ [] := by
  constructor
  · rfl
  · decide

/-- Claim C2, amended.  For every category-filtered scan, every record in the
result has a category in the filter set; an omitted filter (`None`) scans
unfiltered, returning a record for every enumerated file; but an empty
filter set returns the empty sequence, not all categories. -/
theorem c2_scan_filter (env : Env) (w : List (Chars × List Chars))
    (ls : List (Chars × Bool)) (recursive : Bool) (root : Chars) :
    (∀ l : List FileType, ∀ r ∈ scan_directory env w ls recursive (some l) root,
        r.ftype ∈ l) ∧
      scan_directory env w ls recursive (some []) root = [] ∧
      scan_directory env w ls recursive none root =
        (walkedFiles w ls recursive root).map (get_file_metadata env) := by
  refine ⟨?_, ?_, ?_⟩
  · intro l r hr
    obtain ⟨p, hpass, rfl⟩ := mem_scan_directory env w ls recursive (some l) root r hr
    rw [get_file_metadata_ftype]
    simpa [passFilter] using hpass
  · cases recursive with
    | true =>
      simp only [scan_directory, if_true, List.flatten_eq_nil_iff, List.mem_map]
      rintro sub ⟨pr, hpr, rfl⟩
      rw [List.filterMap_eq_nil_iff]
      intro f hf
      simp [passFilter]
    | false =>
      simp only [scan_directory, Bool.false_eq_true, if_false,
        List.filterMap_eq_nil_iff]
      intro it hit
      split
      · simp [passFilter]
      · rfl
  · cases recursive with
    | true =>
      simp only [scan_directory, walkedFiles, if_true, List.map_flatten,
        List.map_map]
      congr 1
      apply List.map_congr_left
      intro pr _
      simp [passFilter, Function.comp, List.map_map, filterMap_someComp]
    | false =>
      simp only [scan_directory, walkedFiles, Bool.false_eq_true, if_false,
        List.map_filterMap]
      apply List.filterMap_congr
      intro it _
      split <;> simp [passFilter]

/-- Witness for C2: on the one-file directory, the single record produced
by a `["text"]`-filtered scan indeed carries category `text`. -/
theorem c2_witness :
    (get_file_metadata ⟨fun _ => 5, fun _ => 0, fun _ => 0, fun _ => none, fun _ => true⟩
        (joinPath (str "/d") (str "a.txt"))).ftype ∈ [FileType.text] :=
  (c2_scan_filter ⟨fun _ => 5, fun _ => 0, fun _ => 0, fun _ => none, fun _ => true⟩
      [(str "/d", [str "a.txt"])] [(str "a.txt", true)] true (str "/d")).1
    [FileType.text] _ (by decide)

/-! ## Name search and the tool boundary -/

/-- `search_files` (lines 234-263): the query is lower-cased once up
front; a file matches when its lower-cased name contains it as a
substring, and the category filter is applied on top. -/
def search_files (env : Env) (w : List (Chars × List Chars))
    (ls : List (Chars × Bool)) (recursive : Bool) (query : Chars)
    (file_types : Option (List FileType)) (directory_path : Chars) :
    List FileRecord :=
  let q := lowerCase query
  if recursive then
    (w.map (fun pr => pr.2.filterMap (fun f =>
      if containsSub (lowerCase f) q then
        let fp := joinPath pr.1 f
        if passFilter file_types (get_file_type fp) then some (get_file_metadata env fp)
        else none
      else none))).flatten
  else
    ls.filterMap (fun it =>
      if containsSub (lowerCase it.1) q && it.2 then
        let fp := joinPath directory_path it.1
        if passFilter file_types (get_file_type fp) then some (get_file_metadata env fp)
        else none
      else none)

/-- Claim C7.  Name search is case-insensitive: two queries with the same
lower-casing produce identical result sequences (lines 239, 244, 253 lower
the query once and compare against lower-cased names). -/
theorem c7_search_files_case_insensitive (env : Env)
    (w : List (Chars × List Chars)) (ls : List (Chars × Bool))
    (recursive : Bool) (file_types : Option (List FileType)) (root : Chars)
    (q q' : Chars) (h : lowerCase q = lowerCase q') :
    search_files env w ls recursive q file_types root =
      search_files env w ls recursive q' file_types root := by
  unfold search_files
  rw [h]

/-- Witness for C7: searching the one-file directory for "TEST" and for
"test" returns the same sequence. -/
theorem c7_witness :
    search_files ⟨fun _ => 5, fun _ => 0, fun _ => 0, fun _ => none, fun _ => true⟩
        [(str "/d", [str "mytest.txt"])] [(str "mytest.txt", true)] true
        (str "TEST") none (str "/d") =
      search_files ⟨fun _ => 5, fun _ => 0, fun _ => 0, fun _ => none, fun _ => true⟩
        [(str "/d", [str "mytest.txt"])] [(str "mytest.txt", true)] true
        (str "test") none (str "/d") :=
  c7_search_files_case_insensitive _ _ _ _ _ _ _ _ (by decide)

/-- The structured error payloads the tools return: the code returns
string-message dictionaries; each constructor stands for one message
family ("... not found ...", "... already exists ...", "Not a text file",
and a caught OS/runtime exception's message respectively). -/
inductive Err
  | notFound (p : Chars)
  | alreadyExists (p : Chars)
  | notText (p : Chars)
  | ioError (msg : Chars)
deriving DecidableEq

/-- Success payload of `scan_directory_tool` (lines 376-380). -/
structure ScanOut where
  directory : Chars
  file_count : Nat
  files : List FileRecord
deriving DecidableEq

/-- Success payload of `search_files_tool` (lines 639-644); `matchRecs`
models the JSON key "matches", whose name Lean reserves. -/
structure SearchOut where
  directory : Chars
  query : Chars
  match_count : Nat
  matchRecs : List FileRecord
deriving DecidableEq

/-- `scan_directory_tool` (lines 350-380): rejects a root that is not a
directory, otherwise wraps the scan results with their count. -/
def scan_directory_tool (env : Env) (w : List (Chars × List Chars))
    (ls : List (Chars × Bool)) (directory_path : Chars) (recursive : Bool)
    (file_types : Option (List FileType)) : Except Err ScanOut :=
  if env.isdir directory_path then
    let results := scan_directory env w ls recursive file_types directory_path
    .ok ⟨directory_path, results.length, results⟩
  else .error (.notFound directory_path)

/-- `search_files_tool` (lines 612-644): rejects a root that is not a
directory, otherwise wraps the name-search results with their count. -/
def search_files_tool (env : Env) (w : List (Chars × List Chars))
    (ls : List (Chars × Bool)) (directory_path : Chars) (query : Chars)
    (recursive : Bool) (file_types : Option (List FileType)) :
    Except Err SearchOut :=
  if env.isdir directory_path then
    let results := search_files env w ls recursive query file_types directory_path
    .ok ⟨directory_path, query, results.length, results⟩
  else .error (.notFound directory_path)

theorem scan_directory_eq_nil (env : Env) (w : List (Chars × List Chars))
    (ls : List (Chars × Bool)) (recursive : Bool)
    (file_types : Option (List FileType)) (root : Chars)
    (hw : ∀ pr ∈ w, ∀ f ∈ pr.2,
      passFilter file_types (get_file_type (joinPath pr.1 f)) = false)
    (hls : ∀ it ∈ ls, it.2 = true →
      passFilter file_types (get_file_type (joinPath root it.1)) = false) :
    scan_directory env w ls recursive file_types root = [] := by
  cases recursive with
  | true =>
    simp only [scan_directory, if_true, List.flatten_eq_nil_iff, List.mem_map]
    rintro sub ⟨pr, hpr, rfl⟩
    rw [List.filterMap_eq_nil_iff]
    intro f hf
    simp [hw pr hpr f hf]
  | false =>
    simp only [scan_directory, Bool.false_eq_true, if_false,
      List.filterMap_eq_nil_iff]
    intro it hit
    split
    · simp [hls it hit (by assumption)]
    · rfl

theorem search_files_eq_nil (env : Env) (w : List (Chars × List Chars))
    (ls : List (Chars × Bool)) (recursive : Bool) (query : Chars)
    (file_types : Option (List FileType)) (root : Chars)
    (hw : ∀ pr ∈ w, ∀ f ∈ pr.2,
      containsSub (lowerCase f) (lowerCase query) = false)
    (hls : ∀ it ∈ ls, containsSub (lowerCase it.1) (lowerCase query) = false) :
    search_files env w ls recursive query file_types root = [] := by
  cases recursive with
  | true =>
    simp only [search_files, if_true, List.flatten_eq_nil_iff, List.mem_map]
    rintro sub ⟨pr, hpr, rfl⟩
    rw [List.filterMap_eq_nil_iff]
    intro f hf
    simp [hw pr hpr f hf]
  | false =>
    simp only [search_files, Bool.false_eq_true, if_false,
      List.filterMap_eq_nil_iff]
    intro it hit
    simp [hls it hit]

/-- Claim C8.  Both the scan tool and the name-search tool return a NotFound
error when the root is not a directory; when the root is a directory but
no enumerated file passes (the category filter for scan; the
name-containment test for search), both return a success payload with an
empty sequence and count zero, not an error. -/
theorem c8_tools_root_and_empty (env : Env) (w : List (Chars × List Chars))
    (ls : List (Chars × Bool)) (root : Chars) (recursive : Bool)
    (file_types : Option (List FileType)) (query : Chars) :
    (env.isdir root = false →
      scan_directory_tool env w ls root recursive file_types =
          .error (.notFound root) ∧
        search_files_tool env w ls root query recursive file_types =
          .error (.notFound root)) ∧
      (env.isdir root = true →
        (∀ pr ∈ w, ∀ f ∈ pr.2,
          passFilter file_types (get_file_type (joinPath pr.1 f)) = false) →
        (∀ it ∈ ls, it.2 = true →
          passFilter file_types (get_file_type (joinPath root it.1)) = false) →
        scan_directory_tool env w ls root recursive file_types =
          .ok ⟨root, 0, []⟩) ∧
      (env.isdir root = true →
        (∀ pr ∈ w, ∀ f ∈ pr.2,
          containsSub (lowerCase f) (lowerCase query) = false) →
        (∀ it ∈ ls, containsSub (lowerCase it.1) (lowerCase query) = false) →
        search_files_tool env w ls root query recursive file_types =
          .ok ⟨root, query, 0, []⟩) := by
  refine ⟨fun hdir => ⟨?_, ?_⟩, fun hdir hw hls => ?_, fun hdir hw hls => ?_⟩
  · simp [scan_directory_tool, hdir]
  · simp [search_files_tool, hdir]
  · have h := scan_directory_eq_nil env w ls recursive file_types root hw hls
    simp [scan_directory_tool, hdir, h]
  · have h := search_files_eq_nil env w ls recursive query file_types root hw hls
    simp [search_files_tool, hdir, h]

/-- Witness for C8: a missing root yields NotFound, and a present root
with no matching file yields an empty success payload. -/
theorem c8_witness :
    scan_directory_tool
        ⟨fun _ => 5, fun _ => 0, fun _ => 0, fun _ => none, fun _ => false⟩
        [] [] (str "/nope") true none = .error (.notFound (str "/nope")) ∧
      search_files_tool
        ⟨fun _ => 5, fun _ => 0, fun _ => 0, fun _ => none, fun _ => true⟩
        [(str "/d", [str "a.txt"])] [(str "a.txt", true)] (str "/d")
        (str "zzz") true none = .ok ⟨str "/d", str "zzz", 0, []⟩ :=
  ⟨((c8_tools_root_and_empty
      ⟨fun _ => 5, fun _ => 0, fun _ => 0, fun _ => none, fun _ => false⟩
      [] [] (str "/nope") true none (str "q")).1 rfl).1,
    (c8_tools_root_and_empty
      ⟨fun _ => 5, fun _ => 0, fun _ => 0, fun _ => none, fun _ => true⟩
      [(str "/d", [str "a.txt"])] [(str "a.txt", true)] (str "/d") true none
      (str "zzz")).2.2 rfl (by decide) (by decide)⟩

/-! ## Content search -/

/-- The extension allow-list of `search_file_contents` (line 273); the
source repeats the preview allow-list verbatim. -/
def searchableExtensions : List Chars :=
  [str ".txt", str ".md", str ".csv", str ".json", str ".xml", str ".html",
   str ".css", str ".js", str ".py", str ".java", str ".c", str ".cpp",
   str ".h", str ".cs", str ".php", str ".rb", str ".go", str ".rs", str ".ts"]

/-- The candidate test of `search_file_contents` (lines 285, 320): the
category filter, and membership of the category in the searchable types or
of the extension in the allow-list. -/
def searchCandidate (file_types : Option (List FileType)) (fp : Chars) : Bool :=
  passFilter file_types (get_file_type fp) &&
    (decide (get_file_type fp ∈ searchableTypes) ||
      decide (extLower fp ∈ searchableExtensions))

/-- The per-file body of `search_file_contents` (lines 286-309): read the
whole file (a raising open/read skips the file), test lower-cased
containment, and extend the file's metadata with the match context (up to
50 characters each side of the first match, clipped to the content, the
`max(0, index-50)` clip being `Nat` truncated subtraction here) and the
1-based line number (newlines before the match index, plus one). -/
def searchOne (env : Env) (query : Chars) (fp : Chars) : Option FileRecord :=
  match env.readFile fp with
  | none => none
  | some content =>
    if containsSub (lowerCase content) (lowerCase query) then
      let md := get_file_metadata env fp
      let index := (findSub (lowerCase content) (lowerCase query)).getD 0
      let start := index - 50
      let stop := min content.length (index + query.length + 50)
      some { md with
        mtch := some ⟨(content.take stop).drop start,
          (content.take index).count '\n' + 1⟩ }
    else none

/-- The inner loop of the recursive branch of `search_file_contents`
(lines 276-309): files of one walked directory, with the
`count >= max_results` break before each candidate is examined.  `acc`
carries the results so far, whose length is the loop's `count`. -/
def searchDirFiles (env : Env) (query : Chars) (dir : Chars)
    (file_types : Option (List FileType)) (max_results : Nat) :
    List Chars → List FileRecord → List FileRecord
  | [], acc => acc
  | f :: rest, acc =>
    if max_results ≤ acc.length then acc
    else
      let fp := joinPath dir f
      if searchCandidate file_types fp then
        match searchOne env query fp with
        | some r => searchDirFiles env query dir file_types max_results rest (acc ++ [r])
        | none => searchDirFiles env query dir file_types max_results rest acc
      else searchDirFiles env query dir file_types max_results rest acc

/-- The non-recursive branch of `search_file_contents` (lines 311-344):
one pass over the listing, the `count >= max_results` break stopping the
whole loop, and non-files skipped. -/
def searchListEntries (env : Env) (query : Chars) (root : Chars)
    (file_types : Option (List FileType)) (max_results : Nat) :
    List (Chars × Bool) → List FileRecord → List FileRecord
  | [], acc => acc
  | it :: rest, acc =>
    if max_results ≤ acc.length then acc
    else if it.2 then
      let fp := joinPath root it.1
      if searchCandidate file_types fp then
        match searchOne env query fp with
        | some r => searchListEntries env query root file_types max_results rest (acc ++ [r])
        | none => searchListEntries env query root file_types max_results rest acc
      else searchListEntries env query root file_types max_results rest acc
    else searchListEntries env query root file_types max_results rest acc

/-- `search_file_contents` (lines 265-348), over the explicit OS
enumeration as in `scan_directory`. -/
def search_file_contents (env : Env) (w : List (Chars × List Chars))
    (ls : List (Chars × Bool)) (recursive : Bool) (query : Chars)
    (file_types : Option (List FileType)) (max_results : Nat) (root : Chars) :
    List FileRecord :=
  if recursive then
    w.foldl (fun acc pr => searchDirFiles env query pr.1 file_types max_results pr.2 acc) []
  else
    searchListEntries env query root file_types max_results ls []

theorem searchDirFiles_of_full (env : Env) (query dir : Chars)
    (file_types : Option (List FileType)) (max_results : Nat)
    (files : List Chars) (acc : List FileRecord)
    (h : max_results ≤ acc.length) :
    searchDirFiles env query dir file_types max_results files acc = acc := by
  cases files with
  | nil => rfl
  | cons f rest => simp only [searchDirFiles, if_pos h]

theorem searchDirFiles_len (env : Env) (query dir : Chars)
    (file_types : Option (List FileType)) (max_results : Nat)
    (files : List Chars) :
    ∀ acc : List FileRecord, acc.length ≤ max_results →
      (searchDirFiles env query dir file_types max_results files acc).length ≤
        max_results := by
  induction files with
  | nil => intro acc h; exact h
  | cons f rest ih =>
    intro acc h
    rw [searchDirFiles]
    split
    · exact h
    · next hfull =>
      have hlt : acc.length < max_results := Nat.lt_of_not_le hfull
      dsimp only
      split
      · cases hso : searchOne env query (joinPath dir f) with
        | some r =>
          simp only [hso]
          exact ih (acc ++ [r]) (by simpa using hlt)
        | none =>
          simp only [hso]
          exact ih acc h
      · exact ih acc h

theorem searchListEntries_of_full (env : Env) (query root : Chars)
    (file_types : Option (List FileType)) (max_results : Nat)
    (ls : List (Chars × Bool)) (acc : List FileRecord)
    (h : max_results ≤ acc.length) :
    searchListEntries env query root file_types max_results ls acc = acc := by
  cases ls with
  | nil => rfl
  | cons it rest => simp only [searchListEntries, if_pos h]

theorem searchListEntries_len (env : Env) (query root : Chars)
    (file_types : Option (List FileType)) (max_results : Nat)
    (ls : List (Chars × Bool)) :
    ∀ acc : List FileRecord, acc.length ≤ max_results →
      (searchListEntries env query root file_types max_results ls acc).length ≤
        max_results := by
  induction ls with
  | nil => intro acc h; exact h
  | cons it rest ih =>
    intro acc h
    rw [searchListEntries]
    split
    · exact h
    · next hfull =>
      have hlt : acc.length < max_results := Nat.lt_of_not_le hfull
      split
      · dsimp only
        split
        · cases hso : searchOne env query (joinPath root it.1) with
          | some r =>
            simp only [hso]
            exact ih (acc ++ [r]) (by simpa using hlt)
          | none =>
            simp only [hso]
            exact ih acc h
        · exact ih acc h
      · exact ih acc h

theorem searchFold_len (env : Env) (query : Chars)
    (file_types : Option (List FileType)) (max_results : Nat)
    (w : List (Chars × List Chars)) :
    ∀ acc : List FileRecord, acc.length ≤ max_results →
      (w.foldl (fun acc pr =>
          searchDirFiles env query pr.1 file_types max_results pr.2 acc)
        acc).length ≤ max_results := by
  induction w with
  | nil => intro acc h; exact h
  | cons pr rest ih =>
    intro acc h
    exact ih _ (searchDirFiles_len env query pr.1 file_types max_results pr.2 acc h)

theorem searchFold_of_full (env : Env) (query : Chars)
    (file_types : Option (List FileType)) (max_results : Nat)
    (w : List (Chars × List Chars)) (acc : List FileRecord)
    (h : max_results ≤ acc.length) :
    w.foldl (fun acc pr =>
        searchDirFiles env query pr.1 file_types max_results pr.2 acc) acc =
      acc := by
  induction w with
  | nil => rfl
  | cons pr rest ih =>
    simp only [List.foldl_cons,
      searchDirFiles_of_full env query pr.1 file_types max_results pr.2 acc h, ih]

theorem searchListEntries_append (env : Env) (query root : Chars)
    (file_types : Option (List FileType)) (max_results : Nat)
    (ls ls2 : List (Chars × Bool)) :
    ∀ acc : List FileRecord,
      searchListEntries env query root file_types max_results (ls ++ ls2) acc =
        searchListEntries env query root file_types max_results ls2
          (searchListEntries env query root file_types max_results ls acc) := by
  induction ls with
  | nil => intro acc; rfl
  | cons it rest ih =>
    intro acc
    rw [List.cons_append, searchListEntries, searchListEntries]
    split
    · next h =>
      exact (searchListEntries_of_full env query root file_types max_results ls2 acc h).symm
    · split
      · dsimp only
        split
        · cases hso : searchOne env query (joinPath root it.1) with
          | some r => simp only [hso]; exact ih (acc ++ [r])
          | none => simp only [hso]; exact ih acc
        · exact ih acc
      · exact ih acc

/-- Claim C3.  Content search never returns more than `max_results` records,
and terminates early: once the cap is reached, appending further
directories (recursive walk) or further listing entries (non-recursive)
leaves the result unchanged — no further candidate is examined. -/
theorem c3_search_contents_cap (env : Env) (w : List (Chars × List Chars))
    (ls : List (Chars × Bool)) (recursive : Bool) (query : Chars)
    (file_types : Option (List FileType)) (max_results : Nat) (root : Chars) :
    (search_file_contents env w ls recursive query file_types max_results
        root).length ≤ max_results ∧
      (∀ w2 ls2,
        (search_file_contents env w ls recursive query file_types max_results
            root).length = max_results →
          search_file_contents env (w ++ w2) (ls ++ ls2) recursive query
              file_types max_results root =
            search_file_contents env w ls recursive query file_types
              max_results root) := by
  constructor
  · cases recursive with
    | true =>
      simp only [search_file_contents, if_true]
      exact searchFold_len env query file_types max_results w [] (by simp)
    | false =>
      simp only [search_file_contents, Bool.false_eq_true, if_false]
      exact searchListEntries_len env query root file_types max_results ls [] (by simp)
  · intro w2 ls2 hfullLen
    cases recursive with
    | true =>
      simp only [search_file_contents, if_true] at hfullLen ⊢
      rw [List.foldl_append]
      exact searchFold_of_full env query file_types max_results w2 _ (le_of_eq hfullLen.symm)
    | false =>
      simp only [search_file_contents, Bool.false_eq_true, if_false] at hfullLen ⊢
      rw [searchListEntries_append]
      exact searchListEntries_of_full env query root file_types max_results ls2 _
        (le_of_eq hfullLen.symm)

/-- Witness for C3: two directories each holding a matching text file,
cap 1: the result has length 1 (≤ 1), and appending a third matching
directory and listing entry changes nothing. -/
theorem c3_witness :
    (search_file_contents
        ⟨fun _ => 5, fun _ => 0, fun _ => 0, fun _ => some (str "hello"), fun _ => true⟩
        [(str "/d", [str "a.txt"]), (str "/d/s", [str "b.txt"])]
        [(str "a.txt", true)] true (str "HELL") none 1 (str "/d")).length ≤ 1 ∧
      search_file_contents
          ⟨fun _ => 5, fun _ => 0, fun _ => 0, fun _ => some (str "hello"), fun _ => true⟩
          ([(str "/d", [str "a.txt"]), (str "/d/s", [str "b.txt"])] ++ [(str "/d/t", [str "c.txt"])])
          ([(str "a.txt", true)] ++ [(str "c.txt", true)]) true (str "HELL") none 1 (str "/d") =
        search_file_contents
          ⟨fun _ => 5, fun _ => 0, fun _ => 0, fun _ => some (str "hello"), fun _ => true⟩
          [(str "/d", [str "a.txt"]), (str "/d/s", [str "b.txt"])]
          [(str "a.txt", true)] true (str "HELL") none 1 (str "/d") :=
  ⟨(c3_search_contents_cap _ _ _ _ _ _ _ _).1,
    (c3_search_contents_cap _ _ _ _ _ _ _ _).2 _ _ (by decide)⟩

/-- Claim C4.  For a readable file whose lower-cased content contains the
lower-cased query, the produced record's match entry is computed from the
first match index `i`: the context is the slice of the content from
`max(0, i - 50)` (here `Nat` truncated `i - 50`) to
`min(length, i + |query| + 50)` — up to 50 characters each side of the
match, clipped to the content's bounds, hence a substring of the content —
and the line field is one plus the number of newlines strictly before `i`. -/
theorem c4_match_record (env : Env) (fp query content : Chars) (i : Nat)
    (hread : env.readFile fp = some content)
    (hfind : findSub (lowerCase content) (lowerCase query) = some i) :
    ∃ r, searchOne env query fp = some r ∧
      r.mtch = some
        ⟨(content.take (min content.length (i + query.length + 50))).drop (i - 50),
          (content.take i).count '\n' + 1⟩ ∧
      ∃ pre post,
        pre ++ ((content.take (min content.length (i + query.length + 50))).drop (i - 50))
            ++ post = content := by
  have hc : containsSub (lowerCase content) (lowerCase query) = true := by
    unfold containsSub
    rw [hfind]
    rfl
  have hsub :
      ((content.take (min content.length (i + query.length + 50))).take (i - 50)) ++
          ((content.take (min content.length (i + query.length + 50))).drop (i - 50)) ++
          content.drop (min content.length (i + query.length + 50)) = content := by
    rw [List.take_append_drop, List.take_append_drop]
  unfold searchOne
  rw [hread]
  dsimp only
  rw [if_pos hc]
  simp only [hfind, Option.getD_some]
  exact ⟨_, rfl, rfl,
    (content.take (min content.length (i + query.length + 50))).take (i - 50),
    content.drop (min content.length (i + query.length + 50)), hsub⟩

/-- Witness for C4: content "hello world", query "World": first match at
index 6; the context is the whole (short) content and the line is 1. -/
theorem c4_witness :
    ∃ r, searchOne
        ⟨fun _ => 5, fun _ => 0, fun _ => 0,
          fun _ => some (str "hello world"), fun _ => true⟩
        (str "World") (str "/d/a.txt") = some r ∧
      r.mtch = some
        ⟨((str "hello world").take
            (min (str "hello world").length (6 + (str "World").length + 50))).drop (6 - 50),
          ((str "hello world").take 6).count '\n' + 1⟩ ∧
      ∃ pre post,
        pre ++ (((str "hello world").take
            (min (str "hello world").length (6 + (str "World").length + 50))).drop (6 - 50))
          ++ post = str "hello world" :=
  c4_match_record _ (str "/d/a.txt") (str "World") (str "hello world") 6 rfl (by decide)

/-! ## File-system state and the read/write/copy/delete operations -/

/-- Mutable file-system state behind the mutation operations: an
association list from path to decoded text content for regular files, and
the list of directory paths.  Real filesystems keep the two disjoint
(`os.path.isfile` is false on a directory); theorems needing that state it
as a hypothesis. -/
structure FsState where
  files : List (Chars × Chars)
  dirs : List Chars
deriving DecidableEq

/-- `os.path.isfile` plus `open(...).read()`: the content of the regular
file at `p`, if any. -/
def getFile (fs : FsState) (p : Chars) : Option Chars := assoc fs.files p

/-- Writing content to path `p` (creating or replacing the file). -/
def setFile (fs : FsState) (p : Chars) (c : Chars) : FsState :=
  { fs with files := (p, c) :: fs.files.filter (fun e => decide (e.1 ≠ p)) }

/-- The chain of a path and its ancestors (stopping at the root). -/
def pathChainAux : Nat → Chars → List Chars
  | 0, _ => []
  | _ + 1, [] => []
  | n + 1, p => p :: pathChainAux n (dirname p)

/-- The directories `os.makedirs(p, exist_ok=True)` guarantees to exist:
`p` and all its ancestors. -/
def pathChain (p : Chars) : List Chars := pathChainAux (p.length + 1) p

/-- `os.makedirs(p, exist_ok=True)`. -/
def makedirs (fs : FsState) (p : Chars) : FsState :=
  { fs with dirs := pathChain p ++ fs.dirs }

theorem mem_pathChain (p : Chars) (h : p ≠ []) : p ∈ pathChain p := by
  cases p with
  | nil => exact absurd rfl h
  | cons x xs => simp [pathChain, pathChainAux]

theorem getFile_setFile (fs : FsState) (p c : Chars) :
    getFile (setFile fs p c) p = some c := by
  simp [getFile, setFile, assoc]

/-- Success payload of `read_text_file` (lines 208-213). -/
structure ReadOut where
  path : Chars
  name : Chars
  content : Chars
  size : Nat
deriving DecidableEq

/-- Success payload of `write_text_file` (lines 224-230). -/
structure WriteOut where
  success : Bool
  path : Chars
  name : Chars
  size : Nat
  mode : Chars
deriving DecidableEq

/-- Success payload of `copy_file` (lines 759-764). -/
structure CopyOut where
  success : Bool
  source : Chars
  destination : Chars
  size : Nat
deriving DecidableEq

/-- The `deleted_file` payload of `delete_file` (lines 833-837). -/
structure DeleteInfo where
  path : Chars
  name : Chars
  size : Nat
deriving DecidableEq

/-- `read_text_file` (lines 185-215).  When `max_lines` is truthy (present
and nonzero) the code runs `for i, line in enumerate(f)` with a break at
`i >= max_lines`, then tests `if i >= max_lines` again after the loop; on
an empty file the loop body never runs, `i` is never bound, and that test
raises `NameError`, which the enclosing handler turns into an error
payload — the `isEmpty` branch below is that control path. -/
def read_text_file (fs : FsState) (p : Chars) (max_lines : Option Nat) :
    Except Err ReadOut :=
  match getFile fs p with
  | none => .error (.notFound p)
  | some c =>
    if get_file_type p ∈ searchableTypes then
      match max_lines with
      | some n =>
        if n ≠ 0 then
          let ls := pyLines c
          if ls.isEmpty then
            .error (.ioError (str "NameError: name i is not defined"))
          else
            let content := (ls.take n).flatten
            let iFinal := if n < ls.length then n else ls.length - 1
            let content2 :=
              if n ≤ iFinal then
                content ++ str "\n... (truncated, showing " ++ (toString n).toList
                  ++ str " of " ++ (toString (iFinal + 1)).toList ++ str "+ lines)"
              else content
            .ok ⟨p, basename p, content2, c.length⟩
        else .ok ⟨p, basename p, c, c.length⟩
      | none => .ok ⟨p, basename p, c, c.length⟩
    else .error (.notText p)

/-- `write_text_file` (lines 217-232): open in write or append mode
(creating the file if missing), write the content, report the resulting
size.  Opening a directory path raises; the handler returns the error
payload. -/
def write_text_file (fs : FsState) (p : Chars) (content : Chars)
    (append : Bool) : FsState × Except Err WriteOut :=
  if p ∈ fs.dirs then (fs, .error (.ioError (str "IsADirectoryError")))
  else
    let newC := if append then (getFile fs p).getD [] ++ content else content
    (setFile fs p newC,
      .ok ⟨true, p, basename p, newC.length,
        if append then str "append" else str "write"⟩)

/-- `copy_file` (lines 727-766): source must be a regular file; an
existing destination without `overwrite` is rejected; otherwise the
destination's parent directories are created and `shutil.copy2` runs, the
reported size being `os.path.getsize` of the destination afterwards. -/
def copy_file (fs : FsState) (source_path destination_path : Chars)
    (overwrite : Bool) : FsState × Except Err CopyOut :=
  match getFile fs source_path with
  | none => (fs, .error (.notFound source_path))
  | some c =>
    if ((getFile fs destination_path).isSome ∨ destination_path ∈ fs.dirs)
        ∧ overwrite = false then
      (fs, .error (.alreadyExists destination_path))
    else
      let fs1 := makedirs fs (dirname destination_path)
      if destination_path ∈ fs.dirs then
        -- shutil.copy2 into an existing directory lands at dir/basename(src),
        -- and the size reported is the directory's own stat size — a
        -- platform value outside this model (0 here; no theorem uses it).
        (setFile fs1 (joinPath destination_path (basename source_path)) c,
          .ok ⟨true, source_path, destination_path, 0⟩)
      else
        (setFile fs1 destination_path c,
          .ok ⟨true, source_path, destination_path, c.length⟩)

/-- `delete_file` (lines 812-847): only a regular file is deleted; its
pre-deletion name and size are reported back. -/
def delete_file (fs : FsState) (p : Chars) : FsState × Except Err DeleteInfo :=
  match getFile fs p with
  | none => (fs, .error (.notFound p))
  | some c =>
    ({ fs with files := fs.files.filter (fun e => decide (e.1 ≠ p)) },
      .ok ⟨p, basename p, c.length⟩)

theorem read_text_file_full (fs : FsState) (p c : Chars)
    (hc : getFile fs p = some c) (ht : get_file_type p ∈ searchableTypes) :
    read_text_file fs p none = .ok ⟨p, basename p, c, c.length⟩ := by
  unfold read_text_file
  rw [hc]
  dsimp only
  rw [if_pos ht]

/-- Claim C5.  Write/read round-trip on a path of a textual category: a
fresh write of `x` reads back as `x`, and a subsequent append of `y`
reads back as `x ++ y`. -/
theorem c5_write_read_roundtrip (fs : FsState) (p x y : Chars)
    (htype : get_file_type p ∈ searchableTypes) (hdir : p ∉ fs.dirs) :
    read_text_file (write_text_file fs p x false).1 p none =
        .ok ⟨p, basename p, x, x.length⟩ ∧
      read_text_file
          (write_text_file (write_text_file fs p x false).1 p y true).1 p none =
        .ok ⟨p, basename p, x ++ y, (x ++ y).length⟩ := by
  have hw1 : write_text_file fs p x false =
      (setFile fs p x,
        .ok ⟨true, p, basename p, x.length, str "write"⟩) := by
    unfold write_text_file
    rw [if_neg hdir]
    rfl
  have hdir1 : p ∉ (setFile fs p x).dirs := hdir
  have hw2 : write_text_file (setFile fs p x) p y true =
      (setFile (setFile fs p x) p (x ++ y),
        .ok ⟨true, p, basename p, (x ++ y).length, str "append"⟩) := by
    unfold write_text_file
    rw [if_neg hdir1]
    dsimp only
    rw [getFile_setFile]
    rfl
  constructor
  · rw [hw1]
    exact read_text_file_full _ p x (getFile_setFile fs p x) htype
  · rw [hw1]
    dsimp only
    rw [hw2]
    exact read_text_file_full _ p (x ++ y) (getFile_setFile _ p (x ++ y)) htype

/-- Witness for C5: writing "X" then appending "Y" at "/tmp/a.txt" reads
back "X" and then "XY". -/
theorem c5_witness :
    read_text_file
        (write_text_file ⟨[], []⟩ (str "/tmp/a.txt") (str "X") false).1
        (str "/tmp/a.txt") none =
      .ok ⟨str "/tmp/a.txt", basename (str "/tmp/a.txt"), str "X", (str "X").length⟩ ∧
    read_text_file
        (write_text_file
          (write_text_file ⟨[], []⟩ (str "/tmp/a.txt") (str "X") false).1
          (str "/tmp/a.txt") (str "Y") true).1
        (str "/tmp/a.txt") none =
      .ok ⟨str "/tmp/a.txt", basename (str "/tmp/a.txt"),
        str "X" ++ str "Y", (str "X" ++ str "Y").length⟩ :=
  c5_write_read_roundtrip ⟨[], []⟩ (str "/tmp/a.txt") (str "X") (str "Y")
    (by decide) (by decide)

/-- Claim C6.  `copy_file`: a missing (or non-regular-file) source yields
NotFound; an existing destination without `overwrite` yields
AlreadyExists; otherwise (for a destination that is not an existing
directory) the parent chain of the destination is created, the copy is
performed, and the reported size is that of the resulting destination
file, i.e. the source content's size. -/
theorem c6_copy_file (fs : FsState) (src dst : Chars) (ow : Bool) :
    (getFile fs src = none →
      copy_file fs src dst ow = (fs, .error (.notFound src))) ∧
    (∀ c, getFile fs src = some c →
      ((getFile fs dst).isSome ∨ dst ∈ fs.dirs) → ow = false →
      copy_file fs src dst ow = (fs, .error (.alreadyExists dst))) ∧
    (∀ c, getFile fs src = some c → dst ∉ fs.dirs →
      (getFile fs dst = none ∨ ow = true) →
      (copy_file fs src dst ow).2 = .ok ⟨true, src, dst, c.length⟩ ∧
      getFile (copy_file fs src dst ow).1 dst = some c ∧
      (dirname dst ≠ [] → dirname dst ∈ (copy_file fs src dst ow).1.dirs)) := by
  refine ⟨fun h => ?_, fun c hc hex how => ?_, fun c hc hnd hok => ?_⟩
  · unfold copy_file
    rw [h]
  · unfold copy_file
    rw [hc]
    dsimp only
    rw [if_pos ⟨hex, how⟩]
  · have hcond : ¬ (((getFile fs dst).isSome ∨ dst ∈ fs.dirs) ∧ ow = false) := by
      rcases hok with hnone | htrue
      · rintro ⟨hex, -⟩
        rcases hex with hs | hd
        · rw [hnone] at hs
          exact absurd hs (by decide)
        · exact hnd hd
      · rintro ⟨-, hfalse⟩
        rw [htrue] at hfalse
        exact absurd hfalse (by decide)
    have heq : copy_file fs src dst ow =
        (setFile (makedirs fs (dirname dst)) dst c,
          .ok ⟨true, src, dst, c.length⟩) := by
      unfold copy_file
      rw [hc]
      dsimp only
      rw [if_neg hcond, if_neg hnd]
    refine ⟨by rw [heq], by rw [heq]; exact getFile_setFile _ dst c, fun hne => ?_⟩
    rw [heq]
    show dirname dst ∈ pathChain (dirname dst) ++ fs.dirs
    exact List.mem_append_left _ (mem_pathChain _ hne)

/-- Witness for C6: copying "/s/a.txt" (content "hi") to the fresh nested
destination "/s/sub/b.txt" succeeds with size 2, writes the content, and
creates the parent "/s/sub"; the same call onto the existing "/s/a.txt"
without overwrite fails with AlreadyExists. -/
theorem c6_witness :
    ((copy_file ⟨[(str "/s/a.txt", str "hi")], [str "/s"]⟩ (str "/s/a.txt")
          (str "/s/sub/b.txt") false).2 =
        .ok ⟨true, str "/s/a.txt", str "/s/sub/b.txt", (str "hi").length⟩ ∧
      getFile (copy_file ⟨[(str "/s/a.txt", str "hi")], [str "/s"]⟩
          (str "/s/a.txt") (str "/s/sub/b.txt") false).1 (str "/s/sub/b.txt") =
        some (str "hi") ∧
      (dirname (str "/s/sub/b.txt") ≠ [] →
        dirname (str "/s/sub/b.txt") ∈
          (copy_file ⟨[(str "/s/a.txt", str "hi")], [str "/s"]⟩
            (str "/s/a.txt") (str "/s/sub/b.txt") false).1.dirs)) ∧
    copy_file ⟨[(str "/s/a.txt", str "hi")], [str "/s"]⟩ (str "/s/a.txt")
        (str "/s/a.txt") false =
      (⟨[(str "/s/a.txt", str "hi")], [str "/s"]⟩,
        .error (.alreadyExists (str "/s/a.txt"))) :=
  ⟨(c6_copy_file ⟨[(str "/s/a.txt", str "hi")], [str "/s"]⟩ (str "/s/a.txt")
      (str "/s/sub/b.txt") false).2.2 (str "hi") rfl (by decide) (.inl rfl),
    (c6_copy_file ⟨[(str "/s/a.txt", str "hi")], [str "/s"]⟩ (str "/s/a.txt")
      (str "/s/a.txt") false).2.1 (str "hi") rfl (.inl (by decide)) rfl⟩

/-- Claim C9.  Reading an existing empty textual file with a positive
`max_lines` yields an error payload, not empty content: the line-limited
loop never binds its loop variable, the post-loop test raises `NameError`,
and the handler converts it to the error result. -/
theorem c9_read_empty_file_max_lines (fs : FsState) (p : Chars) (n : Nat)
    (hn : n ≠ 0) (hfile : getFile fs p = some [])
    (htype : get_file_type p ∈ searchableTypes) :
    read_text_file fs p (some n) =
      .error (.ioError (str "NameError: name i is not defined")) := by
  unfold read_text_file
  rw [hfile]
  dsimp only
  rw [if_pos htype]
  rw [if_pos hn]
  rfl

/-- Witness for C9: the empty file "/d/e.txt" read with `max_lines = 1`
produces the error payload. -/
theorem c9_witness :
    read_text_file ⟨[(str "/d/e.txt", [])], [str "/d"]⟩ (str "/d/e.txt")
        (some 1) =
      .error (.ioError (str "NameError: name i is not defined")) :=
  c9_read_empty_file_max_lines ⟨[(str "/d/e.txt", [])], [str "/d"]⟩
    (str "/d/e.txt") 1 (by decide) rfl (by decide)

/-- Claim C10.  `delete_file` on a path that exists as a directory (hence is
not a regular file) returns the "File not found" error and leaves the
file-system state unchanged. -/
theorem c10_delete_directory_unchanged (fs : FsState) (p : Chars)
    (hdir : p ∈ fs.dirs) (hnotfile : getFile fs p = none) :
    delete_file fs p = (fs, .error (.notFound p)) := by
  unfold delete_file
  rw [hnotfile]

/-- Witness for C10: deleting the existing directory "/d" fails with
NotFound and the state is untouched. -/
theorem c10_witness :
    delete_file ⟨[(str "/d/a.txt", str "x")], [str "/d"]⟩ (str "/d") =
      (⟨[(str "/d/a.txt", str "x")], [str "/d"]⟩,
        .error (.notFound (str "/d"))) :=
  c10_delete_directory_unchanged ⟨[(str "/d/a.txt", str "x")], [str "/d"]⟩
    (str "/d") (by decide) rfl

end FsSpec
